import Mathlib

/-!
Shallow embedding of the veloserver request router (src/src/router.ts and
src/src/context.ts): the path-segment trie (`RouteNode`), registration
(`addPathPropertyHelper` and the `Router` API), the per-request `Context`,
and the dispatch entry point (`Router.requestHandler`).

JavaScript callbacks (handlers and inspectors) are modelled as pure Lean
functions that report how they complete: `CbResult.ok v` (the call returns
`v`, directly or as a promise that resolves), `CbResult.syncThrow` (the
call throws synchronously), `CbResult.asyncReject` (the call returns a
promise that later rejects).  The `async` entry point `requestHandler`
returns a `DispatchResult`: `resolved r` when the promise it returns
resolves with response `r`, `rejected` when that promise rejects.  The
model keeps the JavaScript distinction between faults raised inside the
`try` block (caught) and rejections of promises returned without `await`
(not caught).  Dispatch is instrumented with a trace of callback
invocations, each request-inspector / handler event carrying a snapshot of
the `Context` at invocation time.
-/

/-- Completion of a JavaScript callback call. -/
inductive CbResult (α : Type) where
  | ok (value : α) : CbResult α
  | syncThrow : CbResult α
  | asyncReject : CbResult α
deriving DecidableEq, Repr

/-- Model of a `Request`: the HTTP method and the URL pathname. -/
structure Request where
  method : String
  pathname : String
deriving DecidableEq, Repr

/-- Model of a `Response`: status, headers, body. -/
structure Response where
  status : Nat
  headers : List (String × String) := []
  body : String := ""
deriving DecidableEq, Repr

/-- Model of `Context` (src/src/context.ts): the request pathname (for the
parsed URL), the captured path variables, and the memoized `pathParts`
array.  `pathPartsMemo = some ps` means the memoized array currently holds
`ps`; dispatch destructively shifts segments off this shared array, which
the embedding models by updating `pathPartsMemo` in place. -/
structure Context where
  pathname : String
  pathVariables : List (String × String) := []
  pathPartsMemo : Option (List String) := none
deriving DecidableEq, Repr

/-- Context construction (`new Context(request)`). -/
def Context.create (request : Request) : Context :=
  { pathname := request.pathname }

/-- `Map.set` semantics for the path-variable map: overwrite an existing
key in place, append a new one. -/
def setVar (name value : String) : List (String × String) → List (String × String)
  | [] => [(name, value)]
  | (k, w) :: rest => if k = name then (k, value) :: rest else (k, w) :: setVar name value rest

/-- `Context.addPathVariable` (src/src/context.ts lines 34-39). -/
def Context.addPathVariable (ctx : Context) (name value : String) : Context :=
  { ctx with pathVariables := setVar name value ctx.pathVariables }

/-- JavaScript `String.prototype.split("/")` on the character list: an
empty input gives `[""]`, each `/` starts a new piece. -/
def splitSlashChars : List Char → List String
  | [] => [""]
  | c :: rest =>
    match splitSlashChars rest with
    | [] => [""]
    | s :: ss => if c = '/' then "" :: s :: ss else String.mk (c :: s.data) :: ss

/-- JavaScript `path.split("/")`. -/
def jsSplitSlash (s : String) : List String :=
  splitSlashChars s.data

/-- `Context.getPathParts` (src/src/context.ts lines 27-32): memoized
`(url.pathname || "/").split("/")`; returns the shared array together with
the (possibly updated) context. -/
def Context.getPathParts (ctx : Context) : List String × Context :=
  match ctx.pathPartsMemo with
  | some ps => (ps, ctx)
  | none =>
    let ps := jsSplitSlash (if ctx.pathname = "" then "/" else ctx.pathname)
    (ps, { ctx with pathPartsMemo := some ps })

/-- `RequestInspectorResponse` (src/src/router.ts lines 15-25). -/
structure RequestInspectorResponse where
  shouldContinue : Bool
  response : Option Response := none
deriving DecidableEq, Repr

/-- A route handler with an identity tag for the invocation trace. -/
structure Handler where
  id : Nat
  run : Request → Context → CbResult Response

/-- A request inspector callback with an identity tag. -/
structure ReqInspector where
  id : Nat
  run : Request → Context → CbResult RequestInspectorResponse

/-- A response inspector callback with an identity tag. -/
structure RespInspector where
  id : Nat
  run : Request → Response → Context → CbResult Unit

/-- `Inspector` (src/src/router.ts lines 37-50): optional request and
response inspectors plus the `observeChildPaths` flag (default true). -/
structure Inspector where
  requestInspector : Option ReqInspector := none
  responseInspector : Option RespInspector := none
  observeChildPaths : Bool := true

/-- `RouteNode` (src/src/router.ts lines 52-58). -/
inductive RouteNode : Type where
  | node (pathSegment : String) (isWildcard : Bool) (pathVariable : String)
      (inspectors : List Inspector) (childNodes : List RouteNode)
      (handler : Option Handler) : RouteNode

/-- Field accessor for `RouteNode.pathSegment`. -/
def RouteNode.pathSegment : RouteNode → String
  | .node s _ _ _ _ _ => s

/-- Field accessor for `RouteNode.isWildcard`. -/
def RouteNode.isWildcard : RouteNode → Bool
  | .node _ w _ _ _ _ => w

/-- Field accessor for `RouteNode.pathVariable`. -/
def RouteNode.pathVariable : RouteNode → String
  | .node _ _ v _ _ _ => v

/-- Field accessor for `RouteNode.inspectors`. -/
def RouteNode.inspectors : RouteNode → List Inspector
  | .node _ _ _ is _ _ => is

/-- Field accessor for `RouteNode.childNodes`. -/
def RouteNode.childNodes : RouteNode → List RouteNode
  | .node _ _ _ _ cs _ => cs

/-- Field accessor for `RouteNode.handler`. -/
def RouteNode.handler : RouteNode → Option Handler
  | .node _ _ _ _ _ h => h

/-- A fresh `new RouteNode()`. -/
def RouteNode.empty : RouteNode := .node "" false "" [] [] none

/-- `RouteNode.setPathSegment`. -/
def RouteNode.setPathSegment : RouteNode → String → RouteNode
  | .node _ w v is cs h, s => .node s w v is cs h

/-- `RouteNode.setIsWildcard` (the variable name is set only when the
optional argument is a nonempty, truthy string). -/
def RouteNode.setIsWildcard : RouteNode → Bool → Option String → RouteNode
  | .node s _ v is cs h, w, pv =>
    match pv with
    | some name => if name = "" then .node s w v is cs h else .node s w name is cs h
    | none => .node s w v is cs h

/-- `RouteNode.addInspector`. -/
def RouteNode.addInspector : RouteNode → Inspector → RouteNode
  | .node s w v is cs h, i => .node s w v (is ++ [i]) cs h

/-- `RouteNode.setHandler` (src/src/router.ts lines 71-77): a second
handler on the same node is logged and discarded, the first one stays. -/
def RouteNode.setHandler : RouteNode → Handler → RouteNode
  | .node s w v is cs h, newH =>
    match h with
    | some _ => .node s w v is cs h
    | none => .node s w v is cs (some newH)

/-- `RouteNode.addChildNode`. -/
def RouteNode.addChildNode : RouteNode → RouteNode → RouteNode
  | .node s w v is cs h, c => .node s w v is (cs ++ [c]) h

/-- Replace the first element satisfying the predicate by the given node
(functional counterpart of mutating the node returned by `find`). -/
def replaceFirst (p : RouteNode → Bool) (u : RouteNode) : List RouteNode → List RouteNode
  | [] => []
  | c :: cs => if p c then u :: cs else c :: replaceFirst p u cs

/-- Replace the whole child list. -/
def RouteNode.withChildNodes : RouteNode → List RouteNode → RouteNode
  | .node s w v is _ h, cs => .node s w v is cs h

/-- `RouteNode.addPathPropertyHelper` (src/src/router.ts lines 91-151),
with in-place mutation of found children rendered as functional
replacement of the first matching child.  A `*` segment followed by more
segments only logs an error: nothing is created and the closure is never
applied.  A `*` as last segment always creates a fresh wildcard child.  A
`:name` segment reuses the first wildcard child when one exists (a name
mismatch is only logged), otherwise creates one.  Any other segment
reuses the first literal child with the same text, otherwise creates
one. -/
def RouteNode.addPathPropertyHelper (node : RouteNode) (pathSegments : List String)
    (setClosure : RouteNode → RouteNode) : RouteNode :=
  match pathSegments with
  | [] => setClosure node
  | pathSegment :: rest =>
    if pathSegment = "*" then
      if rest.length > 0 then
        node
      else
        node.addChildNode (setClosure ((RouteNode.empty).setIsWildcard true (some "*")))
    else if 1 < pathSegment.data.length ∧ pathSegment.data.headD ' ' = ':' then
      let pathVariable := String.mk pathSegment.data.tail
      match node.childNodes.find? (fun c => c.isWildcard) with
      | some child =>
        let updated :=
          if rest.isEmpty then setClosure child
          else child.addPathPropertyHelper rest setClosure
        node.withChildNodes (replaceFirst (fun c => c.isWildcard) updated node.childNodes)
      | none =>
        let newChild := (RouteNode.empty).setIsWildcard true (some pathVariable)
        let newChild :=
          if rest.isEmpty then setClosure newChild
          else newChild.addPathPropertyHelper rest setClosure
        node.addChildNode newChild
    else
      match node.childNodes.find? (fun c => c.pathSegment == pathSegment) with
      | some child =>
        let updated :=
          if rest.isEmpty then setClosure child
          else child.addPathPropertyHelper rest setClosure
        node.withChildNodes (replaceFirst (fun c => c.pathSegment == pathSegment) updated node.childNodes)
      | none =>
        let newChild := (RouteNode.empty).setPathSegment pathSegment
        let newChild :=
          if rest.isEmpty then setClosure newChild
          else newChild.addPathPropertyHelper rest setClosure
        node.addChildNode newChild

/-- `RouteNode.addPathHandler`. -/
def RouteNode.addPathHandler (node : RouteNode) (pathSegments : List String) (h : Handler) : RouteNode :=
  node.addPathPropertyHelper pathSegments (fun n => n.setHandler h)

/-- `RouteNode.addPathInspector`. -/
def RouteNode.addPathInspector (node : RouteNode) (pathSegments : List String) (i : Inspector) : RouteNode :=
  node.addPathPropertyHelper pathSegments (fun n => n.addInspector i)

/-- `pathSegmentsFromPath` (src/src/router.ts lines 155-159): split on `/`
and shift off the leading empty segment. -/
def pathSegmentsFromPath (path : String) : List String :=
  (jsSplitSlash path).tail

/-- The default not-found handler (src/src/router.ts lines 172-176).  Its
trace id is fixed at 1000. -/
def default_not_found_handler : Handler :=
  { id := 1000,
    run := fun _ _ => .ok
      { status := 404,
        headers := [("content-type", "text/html; charset=utf-8")],
        body := "<!DOCTYPE html><html><body>Not Found</body></html>" } }

/-- The default server-error handler (src/src/router.ts lines 177-179).
Its trace id is fixed at 1001. -/
def default_server_error_handler : Handler :=
  { id := 1001,
    run := fun _ _ => .ok { status := 500, body := "Internal Server Error" } }

/-- `Router` state: one trie root per supported method plus the fallback
handlers. -/
structure Router where
  get_routes : RouteNode := RouteNode.empty
  head_routes : RouteNode := RouteNode.empty
  post_routes : RouteNode := RouteNode.empty
  not_found_handler : Handler := default_not_found_handler
  server_error_handler : Handler := default_server_error_handler

/-- `Router.get` (single-path form). -/
def Router.get (rt : Router) (path : String) (h : Handler) : Router :=
  { rt with get_routes := rt.get_routes.addPathHandler (pathSegmentsFromPath path) h }

/-- `Router.head` (single-path form). -/
def Router.head (rt : Router) (path : String) (h : Handler) : Router :=
  { rt with head_routes := rt.head_routes.addPathHandler (pathSegmentsFromPath path) h }

/-- `Router.post` (single-path form). -/
def Router.post (rt : Router) (path : String) (h : Handler) : Router :=
  { rt with post_routes := rt.post_routes.addPathHandler (pathSegmentsFromPath path) h }

/-- `Router.addGetInspector` (single-path form). -/
def Router.addGetInspector (rt : Router) (path : String) (i : Inspector) : Router :=
  { rt with get_routes := rt.get_routes.addPathInspector (pathSegmentsFromPath path) i }

/-- Trace of callback invocations during one dispatch.  Request-inspector
and handler events carry the `Context` passed to the callback. -/
inductive Event where
  | reqInspectorInvoked (id : Nat) (ctx : Context) : Event
  | respInspectorInvoked (id : Nat) : Event
  | handlerInvoked (id : Nat) (ctx : Context) : Event
deriving DecidableEq, Repr

/-- Outcome of the promise returned by `requestHandler`. -/
inductive DispatchResult where
  | resolved (response : Response) : DispatchResult
  | rejected : DispatchResult
deriving DecidableEq, Repr

/-- Outcome of processing one node's inspector list (src/src/router.ts
lines 282-298): continue with the grown response-inspector queue, halt
with an inspector-provided response, take the malformed-outcome
server-error branch, or propagate a caught inspector fault. -/
inductive IStep where
  | cont (queue : List RespInspector) (trace : List Event) : IStep
  | halt (resp : Response) (queue : List RespInspector) (trace : List Event) : IStep
  | malformed (queue : List RespInspector) (trace : List Event) : IStep
  | fault (trace : List Event) : IStep

/-- Queue a response inspector when present and in scope
(src/src/router.ts lines 295-297). -/
def pushResp (inScope : Bool) (insp : Inspector) (queue : List RespInspector) : List RespInspector :=
  match insp.responseInspector with
  | some rsi => if inScope then queue ++ [rsi] else queue
  | none => queue

/-- The inspector loop of `requestHandler` (src/src/router.ts lines
282-298).  An inspector is in scope iff no path parts remain or its
`observeChildPaths` is true.  A request-inspector fault (sync throw or
awaited rejection) is caught by the outer catch, so it surfaces as
`IStep.fault`. -/
def processInspectors (request : Request) (ctx : Context) (parts : List String) :
    List Inspector → List RespInspector → List Event → IStep
  | [], queue, trace => .cont queue trace
  | insp :: rest, queue, trace =>
    let inScope := parts.isEmpty || insp.observeChildPaths
    match insp.requestInspector with
    | some ri =>
      if inScope then
        let trace := trace ++ [Event.reqInspectorInvoked ri.id ctx]
        match ri.run request ctx with
        | .syncThrow => .fault trace
        | .asyncReject => .fault trace
        | .ok out =>
          match out.response with
          | some r => .halt r queue trace
          | none =>
            if out.shouldContinue then
              processInspectors request ctx parts rest (pushResp inScope insp queue) trace
            else
              .malformed queue trace
      else
        processInspectors request ctx parts rest (pushResp inScope insp queue) trace
    | none =>
      processInspectors request ctx parts rest (pushResp inScope insp queue) trace

/-- `processResponseInspectors` (src/src/router.ts lines 161-170) applied
to an already-produced `Response`.  The returned promise is handed back by
`requestHandler` without `await`, so any inspector fault (sync or async)
rejects the outer promise uncaught. -/
def runQueue (request : Request) (resp : Response) (ctx : Context) :
    List RespInspector → List Event → DispatchResult × List Event
  | [], trace => (.resolved resp, trace)
  | rsi :: rest, trace =>
    let trace := trace ++ [Event.respInspectorInvoked rsi.id]
    match rsi.run request resp ctx with
    | .ok _ => runQueue request resp ctx rest trace
    | .syncThrow => (.rejected, trace)
    | .asyncReject => (.rejected, trace)

/-- The catch branch of `requestHandler` (src/src/router.ts lines
324-327): invoke the server-error handler directly, bypassing the queued
response inspectors.  A fault raised by the server-error handler itself
escapes (it is raised inside the catch block). -/
def catchBranch (rt : Router) (request : Request) (ctx : Context) (trace : List Event) :
    DispatchResult × List Event :=
  let trace := trace ++ [Event.handlerInvoked rt.server_error_handler.id ctx]
  match rt.server_error_handler.run request ctx with
  | .ok r => (.resolved r, trace)
  | .syncThrow => (.rejected, trace)
  | .asyncReject => (.rejected, trace)

/-- Invoke a handler at its call site inside the try block and hand its
result to `processResponseInspectors`, whose promise is returned without
`await`: a synchronous throw is caught (catch branch), an asynchronous
rejection escapes. -/
def invokeAndFinish (rt : Router) (request : Request) (h : Handler) (queue : List RespInspector)
    (ctx : Context) (trace : List Event) : DispatchResult × List Event :=
  let trace := trace ++ [Event.handlerInvoked h.id ctx]
  match h.run request ctx with
  | .ok r => runQueue request r ctx queue trace
  | .syncThrow => catchBranch rt request ctx trace
  | .asyncReject => (.rejected, trace)

/-- The trie walk of `requestHandler` (src/src/router.ts lines 280-323):
process the node's inspectors, then either finish at an exact match, or
pop a segment, record the closest splat child holding a handler, and step
to the first child that is a wildcard or matches the popped segment
(capturing a path variable for named wildcards).  When no child matches,
fall back to the recorded splat handler or the not-found handler. -/
def walk (rt : Router) (request : Request) (node : RouteNode) (parts : List String)
    (queue : List RespInspector) (closest : Option RouteNode) (ctx : Context)
    (trace : List Event) : DispatchResult × List Event :=
  match processInspectors request ctx parts node.inspectors queue trace with
  | .fault t => catchBranch rt request ctx t
  | .malformed q t => invokeAndFinish rt request rt.server_error_handler q ctx t
  | .halt r q t => runQueue request r ctx q t
  | .cont q t =>
    match parts with
    | [] =>
      match node.handler with
      | some h => invokeAndFinish rt request h q ctx t
      | none => invokeAndFinish rt request rt.not_found_handler q ctx t
    | seg :: rest =>
      let ctx := { ctx with pathPartsMemo := some rest }
      let closest :=
        match node.childNodes.find? (fun c => c.isWildcard && c.pathVariable == "*") with
        | some w => if w.handler.isSome then some w else closest
        | none => closest
      match node.childNodes.find? (fun c => c.isWildcard || c.pathSegment == seg) with
      | some next =>
        let ctx :=
          if next.isWildcard && next.pathVariable != "*" then
            ctx.addPathVariable next.pathVariable seg
          else ctx
        walk rt request next rest q closest ctx t
      | none =>
        match closest with
        | some w =>
          match w.handler with
          | some h => invokeAndFinish rt request h q ctx t
          | none => invokeAndFinish rt request rt.not_found_handler q ctx t
        | none => invokeAndFinish rt request rt.not_found_handler q ctx t

/-- `Router.requestHandler` (src/src/router.ts lines 260-328).  An
unsupported method returns the not-found handler's result directly.
Otherwise the memoized path-parts array is obtained, its leading empty
segment shifted off, and the trie walk runs with an empty
response-inspector queue and no recorded splat. -/
def Router.requestHandler (rt : Router) (request : Request) : DispatchResult × List Event :=
  let ctx := Context.create request
  let root? : Option RouteNode :=
    if request.method = "GET" then some rt.get_routes
    else if request.method = "HEAD" then some rt.head_routes
    else if request.method = "POST" then some rt.post_routes
    else none
  match root? with
  | none =>
    let trace := [Event.handlerInvoked rt.not_found_handler.id ctx]
    match rt.not_found_handler.run request ctx with
    | .ok r => (.resolved r, trace)
    | .syncThrow => catchBranch rt request ctx trace
    | .asyncReject => (.rejected, trace)
  | some root =>
    let (parts0, ctx1) := ctx.getPathParts
    let parts := parts0.tail
    let ctx2 := { ctx1 with pathPartsMemo := some parts }
    walk rt request root parts [] none ctx2 []

/-! ## Fixtures and helper observations used by the claim theorems -/

/-- A router with no routes and the default fallback handlers. -/
def emptyRouter : Router := {}

/-- A handler that returns a fixed response. -/
def okHandler (i st : Nat) (b : String) : Handler :=
  ⟨i, fun _ _ => .ok ⟨st, [], b⟩⟩

/-- The response of the default not-found handler. -/
def notFoundResponse : Response :=
  { status := 404,
    headers := [("content-type", "text/html; charset=utf-8")],
    body := "<!DOCTYPE html><html><body>Not Found</body></html>" }

/-- The response of the default server-error handler. -/
def serverErrorResponse : Response :=
  { status := 500, body := "Internal Server Error" }

/-- Number of wildcard children of a node. -/
def wildcardChildCount (n : RouteNode) : Nat :=
  (n.childNodes.filter (fun c => c.isWildcard)).length

/-- The first non-wildcard child with the given literal segment. -/
def findLiteralChild (n : RouteNode) (seg : String) : Option RouteNode :=
  n.childNodes.find? (fun c => !c.isWildcard && c.pathSegment == seg)

/-- Number of wildcard children of the literal child reached by `seg`. -/
def wildcardChildCountUnder (n : RouteNode) (seg : String) : Nat :=
  match findLiteralChild n seg with
  | some c => wildcardChildCount c
  | none => 0

mutual

/-- All handler ids installed anywhere in a subtree. -/
def RouteNode.handlerIds : RouteNode → List Nat
  | .node _ _ _ _ cs h => (match h with | some hh => [hh.id] | none => []) ++ handlerIdsOf cs

/-- All handler ids installed in a list of subtrees. -/
def handlerIdsOf : List RouteNode → List Nat
  | [] => []
  | c :: cs => c.handlerIds ++ handlerIdsOf cs

end

/-! ## C1: top-level fault handling -/

/-- A route handler whose returned promise rejects. -/
def c1RejectingHandler : Handler := ⟨1, fun _ _ => .asyncReject⟩

/-- Router for the C1 counterexample: one asynchronously rejecting handler
at `/`. -/
def c1Router : Router := emptyRouter.get "/" c1RejectingHandler

/-- Claim C1 counterexample: a handler whose promise rejects is NOT
converted to the server-error response — the promise returned by
`requestHandler` rejects, because dispatch returns the
`processResponseInspectors` promise without awaiting it inside the `try`
block.  This refutes "any fault raised by a callback during dispatch is
caught and converted to the serverErrorHandler's output, so the promise
returned by requestHandler never rejects". -/
theorem c1_counterexample :
    (c1Router.requestHandler ⟨"GET", "/"⟩).1 = DispatchResult.rejected ∧
    (c1Router.requestHandler ⟨"GET", "/"⟩).1 ≠ DispatchResult.resolved serverErrorResponse := by
  decide

/-! ## C2: literal children versus wildcard children during the walk -/

/-- Handler registered under the named-variable path in the C2 routers. -/
def c2Wildcard : Handler := okHandler 1 201 "var"

/-- Handler registered under the literal path in the C2 routers. -/
def c2Literal : Handler := okHandler 2 202 "lit"

/-- Router registering the named-variable path `/a/:x` before the literal
path `/a/lit`. -/
def c2RouterWildcardFirst : Router :=
  (emptyRouter.get "/a/:x" c2Wildcard).get "/a/lit" c2Literal

/-- Router registering the literal path `/a/lit` before the
named-variable path `/a/:x`. -/
def c2RouterLiteralFirst : Router :=
  (emptyRouter.get "/a/lit" c2Literal).get "/a/:x" c2Wildcard

/-- Claim C2 counterexample: with the wildcard child registered before
the literal child, a request whose popped segment equals the literal
child's segment is routed to the wildcard child (the walk takes the first
child satisfying `isWildcard or segment match`, in registration order),
so the literal child is NOT always selected: selection depends on
registration order. -/
theorem c2_counterexample :
    c2RouterWildcardFirst.requestHandler ⟨"GET", "/a/lit"⟩ =
      (DispatchResult.resolved ⟨201, [], "var"⟩,
        [Event.handlerInvoked 1 ⟨"/a/lit", [("x", "lit")], some []⟩]) ∧
    (c2RouterWildcardFirst.requestHandler ⟨"GET", "/a/lit"⟩).1 ≠
      DispatchResult.resolved ⟨202, [], "lit"⟩ := by
  decide

/-- Claim C2 amended: the walk selects the first child in the child list
(registration order) satisfying `isWildcard or pathSegment = popped
segment`; the literal child is preferred exactly when it precedes every
wildcard child in that list, and a wildcard child registered earlier
captures the segment even when a literal child matches. -/
theorem c2_amended :
    c2RouterLiteralFirst.requestHandler ⟨"GET", "/a/lit"⟩ =
      (DispatchResult.resolved ⟨202, [], "lit"⟩,
        [Event.handlerInvoked 2 ⟨"/a/lit", [], some []⟩]) ∧
    c2RouterLiteralFirst.requestHandler ⟨"GET", "/a/other"⟩ =
      (DispatchResult.resolved ⟨201, [], "var"⟩,
        [Event.handlerInvoked 1 ⟨"/a/other", [("x", "other")], some []⟩]) ∧
    c2RouterWildcardFirst.requestHandler ⟨"GET", "/a/lit"⟩ =
      (DispatchResult.resolved ⟨201, [], "var"⟩,
        [Event.handlerInvoked 1 ⟨"/a/lit", [("x", "lit")], some []⟩]) := by
  decide

/-! ## C3: at most one wildcard child per node -/

/-- Router registering the splat path `/a/*` twice. -/
def c3Router : Router :=
  (emptyRouter.get "/a/*" (okHandler 1 201 "s1")).get "/a/*" (okHandler 2 202 "s2")

/-- Claim C3 counterexample: registering `/a/*` twice leaves the node for
`a` with TWO wildcard children, because the `*` branch of
`addPathPropertyHelper` always creates a fresh splat child and never
reuses an existing one; the "at most one wildcard child" invariant fails
for splat registrations. -/
theorem c3_counterexample :
    wildcardChildCountUnder c3Router.get_routes "a" = 2 := by
  decide

/-! ## C4: terminal splat fallback -/

/-- Handler under the nested literal path in the C4 counterexample. -/
def c4DeepHandler : Handler := okHandler 2 202 "deep"

/-- Handler under the splat path in the C4 routers. -/
def c4SplatHandler : Handler := okHandler 1 201 "splat"

/-- Router with `/files/sub/deep` registered before `/files/*`. -/
def c4Router : Router :=
  (emptyRouter.get "/files/sub/deep" c4DeepHandler).get "/files/*" c4SplatHandler

/-- Router with only the splat route `/files/*`. -/
def c4aRouter : Router := emptyRouter.get "/files/*" c4SplatHandler

/-- Router with a nested splat `/files/sub/*` registered before the
shallow splat `/files/*`. -/
def c4bRouter : Router :=
  (emptyRouter.get "/files/sub/*" (okHandler 2 202 "nested")).get "/files/*" c4SplatHandler

/-- Claim C4 counterexample: with `/files/sub/deep` and `/files/*`
registered (in that order), the request `/files/sub` extends the splat's
registered position and no more specific handler exists, yet dispatch
returns the not-found response: the splat fallback is consulted only when
the walk runs out of matching children, not when it ends at a registered
handler-less node. -/
theorem c4_counterexample :
    c4Router.requestHandler ⟨"GET", "/files/sub"⟩ =
      (DispatchResult.resolved notFoundResponse,
        [Event.handlerInvoked 1000 ⟨"/files/sub", [], some []⟩]) ∧
    (c4Router.requestHandler ⟨"GET", "/files/sub"⟩).1 ≠
      DispatchResult.resolved ⟨201, [], "splat"⟩ := by
  decide

/-- Claim C4 amended: a request whose path extends the splat's registered
position reaches the splat handler when the walk ends by running out of
matching children (`/files/a`, `/files/a/b/c`); the deepest splat-with-
handler recorded along the walked path wins (`/files/sub/a/b` under both
`/files/sub/*` and `/files/*`); but a request whose walk ends exactly at
a registered handler-less node (`/files/sub` with `/files/sub/deep`
registered) returns the not-found response even though an enclosing splat
with a handler exists. -/
theorem c4_amended :
    (c4aRouter.requestHandler ⟨"GET", "/files/a"⟩).1 =
      DispatchResult.resolved ⟨201, [], "splat"⟩ ∧
    (c4aRouter.requestHandler ⟨"GET", "/files/a/b/c"⟩).1 =
      DispatchResult.resolved ⟨201, [], "splat"⟩ ∧
    (c4bRouter.requestHandler ⟨"GET", "/files/sub/a/b"⟩).1 =
      DispatchResult.resolved ⟨202, [], "nested"⟩ ∧
    (c4Router.requestHandler ⟨"GET", "/files/sub"⟩).1 =
      DispatchResult.resolved notFoundResponse := by
  decide

/-! ## C6: registration of segments after a splat, and splat reuse -/

/-- Router registering `/a/*/b`, a splat followed by a further
segment. -/
def c6DroppedRouter : Router := emptyRouter.get "/a/*/b" (okHandler 1 201 "x")

/-- Router registering `/b/*` twice with different handlers. -/
def c6DupRouter : Router :=
  (emptyRouter.get "/b/*" (okHandler 1 201 "h1")).get "/b/*" (okHandler 2 202 "h2")

/-- Claim C6 counterexample: registering `/a/*/b` installs NO handler
anywhere in the trie (the registration action is dropped along with the
extra segments, not applied at a splat node), and registering `/b/*`
twice creates a second splat child instead of reusing the existing
one. -/
theorem c6_counterexample :
    c6DroppedRouter.get_routes.handlerIds = [] ∧
    wildcardChildCountUnder c6DupRouter.get_routes "b" = 2 := by
  decide

/-- Claim C6 amended: registering segments after a `*` is a non-fatal
configuration error, but the WHOLE registration is dropped (no splat node
is created and the action is never applied), not just the extra segments;
and a `*` segment always creates a fresh splat child even when one
already exists (dispatch then uses the first splat child, so the first
registered splat handler wins). -/
theorem c6_amended :
    (∀ (node : RouteNode) (seg2 : String) (rest : List String) (action : RouteNode → RouteNode),
      node.addPathPropertyHelper ("*" :: seg2 :: rest) action = node) ∧
    (∀ (node : RouteNode) (action : RouteNode → RouteNode),
      node.addPathPropertyHelper ["*"] action =
        node.addChildNode (action ((RouteNode.empty).setIsWildcard true (some "*")))) ∧
    (c6DupRouter.requestHandler ⟨"GET", "/b/x"⟩).1 = DispatchResult.resolved ⟨201, [], "h1"⟩ := by
  refine ⟨?_, ?_, by decide⟩
  · intro node seg2 rest action
    simp [RouteNode.addPathPropertyHelper]
  · intro node action
    simp [RouteNode.addPathPropertyHelper]

/-- Witness for `c6_amended`: its universally quantified parts applied at
a concrete node and segment list. -/
theorem c6_amended_witness :
    (RouteNode.empty).addPathPropertyHelper ["*", "b"] id = RouteNode.empty :=
  c6_amended.1 RouteNode.empty "b" [] id

/-! ## C8: named path variables -/

/-- A handler that echoes the captured `id` path variable into the
response body. -/
def c8Handler : Handler :=
  ⟨7, fun _ ctx => .ok ⟨200, [], (((ctx.pathVariables.find? (fun p => p.1 == "id")).map Prod.snd).getD "")⟩⟩

/-- Router with the named-variable route `/users/:id`. -/
def c8Router : Router := emptyRouter.get "/users/:id" c8Handler

/-- Claim C8: with `/users/:id` registered, a request to `/users/42`
reaches that handler, and the context passed to the handler already
carries the binding `id ↦ "42"` (the handler reads it back into the
response body). -/
theorem c8_path_variable :
    c8Router.requestHandler ⟨"GET", "/users/42"⟩ =
      (DispatchResult.resolved ⟨200, [], "42"⟩,
        [Event.handlerInvoked 7 ⟨"/users/42", [("id", "42")], some []⟩]) := by
  decide

/-! ## C10: outcomes carrying both a response and shouldContinue -/

/-- An inspector whose request inspector returns the fixed outcome
`o`. -/
def c10Inspector (o : RequestInspectorResponse) : Inspector :=
  { requestInspector := some ⟨3, fun _ _ => .ok o⟩ }

/-- Router with a handler at `/` and the outcome-`o` inspector at `/`. -/
def c10Router (o : RequestInspectorResponse) : Router :=
  (emptyRouter.get "/" (okHandler 4 200 "handled")).addGetInspector "/" (c10Inspector o)

/-- The context as seen by callbacks at the terminal node for `/`. -/
def c10Ctx : Context := ⟨"/", [], some []⟩

/-- Claim C10: an outcome carrying a response halts dispatch with that
response regardless of `shouldContinue` (the response field takes
precedence, so an outcome with both set is treated as a halt); the
malformed-outcome server-error branch runs exactly when the outcome has
no response and `shouldContinue` is false; and with no response and
`shouldContinue` true dispatch proceeds to the handler. -/
theorem c10_outcome_precedence :
    (∀ (o : RequestInspectorResponse) (r : Response), o.response = some r →
      (c10Router o).requestHandler ⟨"GET", "/"⟩ =
        (DispatchResult.resolved r, [Event.reqInspectorInvoked 3 c10Ctx])) ∧
    (∀ o : RequestInspectorResponse, o.response = none → o.shouldContinue = false →
      (c10Router o).requestHandler ⟨"GET", "/"⟩ =
        (DispatchResult.resolved serverErrorResponse,
          [Event.reqInspectorInvoked 3 c10Ctx, Event.handlerInvoked 1001 c10Ctx])) ∧
    (∀ o : RequestInspectorResponse, o.response = none → o.shouldContinue = true →
      (c10Router o).requestHandler ⟨"GET", "/"⟩ =
        (DispatchResult.resolved ⟨200, [], "handled"⟩,
          [Event.reqInspectorInvoked 3 c10Ctx, Event.handlerInvoked 4 c10Ctx])) := by
  refine ⟨?_, ?_, ?_⟩
  · rintro ⟨sc, resp⟩ r hr
    simp only [RequestInspectorResponse.response] at hr
    subst hr
    rfl
  · rintro ⟨sc, resp⟩ hr hsc
    simp only [RequestInspectorResponse.response] at hr
    simp only [RequestInspectorResponse.shouldContinue] at hsc
    subst hr; subst hsc
    rfl
  · rintro ⟨sc, resp⟩ hr hsc
    simp only [RequestInspectorResponse.response] at hr
    simp only [RequestInspectorResponse.shouldContinue] at hsc
    subst hr; subst hsc
    rfl

/-- Witness for `c10_outcome_precedence`: the violating outcome with both
a response and `shouldContinue = true` halts with that response. -/
theorem c10_outcome_precedence_witness :
    (c10Router ⟨true, some ⟨403, [], "x"⟩⟩).requestHandler ⟨"GET", "/"⟩ =
      (DispatchResult.resolved ⟨403, [], "x"⟩, [Event.reqInspectorInvoked 3 c10Ctx]) :=
  c10_outcome_precedence.1 ⟨true, some ⟨403, [], "x"⟩⟩ ⟨403, [], "x"⟩ rfl

/-! ## C5: halting request inspectors -/

/-- An inspector that continues, with a response inspector. -/
def contInspector (i ri : Nat) : Inspector :=
  { requestInspector := some ⟨i, fun _ _ => .ok ⟨true, none⟩⟩,
    responseInspector := some ⟨ri, fun _ _ _ => .ok ()⟩ }

/-- An inspector that halts with the given response, with a response
inspector of its own. -/
def haltInspector (i ri : Nat) (r : Response) : Inspector :=
  { requestInspector := some ⟨i, fun _ _ => .ok ⟨false, some r⟩⟩,
    responseInspector := some ⟨ri, fun _ _ _ => .ok ()⟩ }

/-- Router with a handler at `/` and three inspectors at `/`: a
continuing one (ids 10/11), a halting one (ids 20/21), and another
continuing one (ids 30/31). -/
def c5Router : Router :=
  (((emptyRouter.get "/" (okHandler 1 200 "h")).addGetInspector "/"
      (contInspector 10 11)).addGetInspector "/"
      (haltInspector 20 21 ⟨403, [], "halt"⟩)).addGetInspector "/"
      (contInspector 30 31)

/-- Claim C5: when inspector processing at a node halts with response
`r`, the walk's result is exactly `runQueue` of the queue collected up to
that point applied to `r` — no handler runs and no later inspector is
consulted; concretely, with inspectors 10/11, 20/21 (halting), 30/31 and
handler 1 at `/`, dispatch returns the halt response after invoking
request inspectors 10 and 20 and only response inspector 11 (collected
strictly before the halting inspector): the handler, inspector 30, and
response inspectors 21 and 31 never run. -/
theorem c5_short_circuit :
    (∀ (rt : Router) (request : Request) (node : RouteNode) (parts : List String)
        (queue : List RespInspector) (closest : Option RouteNode) (ctx : Context)
        (trace : List Event) (r : Response) (q' : List RespInspector) (t' : List Event),
      processInspectors request ctx parts node.inspectors queue trace = IStep.halt r q' t' →
      walk rt request node parts queue closest ctx trace = runQueue request r ctx q' t') ∧
    c5Router.requestHandler ⟨"GET", "/"⟩ =
      (DispatchResult.resolved ⟨403, [], "halt"⟩,
        [Event.reqInspectorInvoked 10 ⟨"/", [], some []⟩,
          Event.reqInspectorInvoked 20 ⟨"/", [], some []⟩,
          Event.respInspectorInvoked 11]) := by
  constructor
  · intro rt request node parts queue closest ctx trace r q' t' h
    unfold walk
    rw [h]
  · decide

/-- The terminal node used by the `c5_short_circuit` witness: a single
halting inspector. -/
def c5WitnessNode : RouteNode :=
  RouteNode.empty.addInspector (haltInspector 20 21 ⟨403, [], "w"⟩)

/-- Witness for `c5_short_circuit`: its general part applied at a
concrete node whose first inspector halts. -/
theorem c5_short_circuit_witness :
    walk emptyRouter ⟨"GET", "/"⟩ c5WitnessNode [] [] none ⟨"/", [], some []⟩ [] =
      runQueue ⟨"GET", "/"⟩ ⟨403, [], "w"⟩ ⟨"/", [], some []⟩ []
        [Event.reqInspectorInvoked 20 ⟨"/", [], some []⟩] :=
  c5_short_circuit.1 emptyRouter ⟨"GET", "/"⟩ c5WitnessNode [] [] none ⟨"/", [], some []⟩ []
    ⟨403, [], "w"⟩ [] [Event.reqInspectorInvoked 20 ⟨"/", [], some []⟩] rfl

/-! ## C1 amended -/

/-- Router with an OK handler at `/` and a response inspector that throws
(id 12). -/
def c1dRouter : Router :=
  (emptyRouter.get "/" (okHandler 1 200 "h")).addGetInspector "/"
    { responseInspector := some ⟨12, fun _ _ _ => .syncThrow⟩ }

/-- Router with a synchronously throwing handler at `/`. -/
def c1sRouter : Router :=
  emptyRouter.get "/" ⟨1, fun _ _ => .syncThrow⟩

/-- Claim C1 amended: faults of request inspectors (synchronous or
awaited asynchronous) and synchronous throws of handlers are caught at
the top level and converted to the serverErrorHandler's output, with the
already-collected response inspectors bypassed; but an asynchronous
handler rejection and any response-inspector fault occur inside the
`processResponseInspectors` promise that `requestHandler` returns without
awaiting, so in those cases the promise returned by `requestHandler`
rejects instead of resolving with the server-error response. -/
theorem c1_amended :
    (∀ (rt : Router) (request : Request) (node : RouteNode) (parts : List String)
        (queue : List RespInspector) (closest : Option RouteNode) (ctx : Context)
        (trace : List Event) (t : List Event),
      processInspectors request ctx parts node.inspectors queue trace = IStep.fault t →
      walk rt request node parts queue closest ctx trace = catchBranch rt request ctx t) ∧
    (∀ (rt : Router) (request : Request) (h : Handler) (queue : List RespInspector)
        (ctx : Context) (trace : List Event),
      h.run request ctx = CbResult.syncThrow →
      invokeAndFinish rt request h queue ctx trace =
        catchBranch rt request ctx (trace ++ [Event.handlerInvoked h.id ctx])) ∧
    (c1sRouter.requestHandler ⟨"GET", "/"⟩).1 = DispatchResult.resolved serverErrorResponse ∧
    (c1Router.requestHandler ⟨"GET", "/"⟩).1 = DispatchResult.rejected ∧
    (c1dRouter.requestHandler ⟨"GET", "/"⟩).1 = DispatchResult.rejected := by
  refine ⟨?_, ?_, by decide, by decide, by decide⟩
  · intro rt request node parts queue closest ctx trace t h
    unfold walk
    rw [h]
  · intro rt request h queue ctx trace hrun
    unfold invokeAndFinish
    rw [hrun]

/-- Witness for `c1_amended`: its general parts applied at a concrete
faulting inspector node and a concrete throwing handler. -/
theorem c1_amended_witness :
    invokeAndFinish emptyRouter ⟨"GET", "/"⟩ ⟨9, fun _ _ => CbResult.syncThrow⟩ [] ⟨"/", [], some []⟩ [] =
      catchBranch emptyRouter ⟨"GET", "/"⟩ ⟨"/", [], some []⟩
        [Event.handlerInvoked 9 ⟨"/", [], some []⟩] :=
  c1_amended.2.1 emptyRouter ⟨"GET", "/"⟩ ⟨9, fun _ _ => CbResult.syncThrow⟩ [] ⟨"/", [], some []⟩ [] rfl

/-! ## C7: inspector scoping -/

/-- The trace carried by an inspector-processing outcome. -/
def IStep.traceOf : IStep → List Event
  | .cont _ t => t
  | .halt _ _ t => t
  | .malformed _ t => t
  | .fault t => t

/-- Every inspector in the list whose request inspector has id `i` has
`observeChildPaths = false`. -/
def inspectorsObsFalse (i : Nat) : List Inspector → Bool
  | [] => true
  | insp :: rest =>
    (match insp.requestInspector with
     | some ri => ri.id != i || !insp.observeChildPaths
     | none => true) && inspectorsObsFalse i rest

mutual

/-- Every inspector anywhere in the subtree whose request inspector has
id `i` has `observeChildPaths = false`. -/
def RouteNode.obsFalseAll (i : Nat) : RouteNode → Bool
  | .node _ _ _ is cs _ => inspectorsObsFalse i is && obsFalseAllOf i cs

/-- `RouteNode.obsFalseAll` over a list of subtrees. -/
def obsFalseAllOf (i : Nat) : List RouteNode → Bool
  | [] => true
  | c :: cs => RouteNode.obsFalseAll i c && obsFalseAllOf i cs

end

theorem obsFalseAll_of_mem {i : Nat} :
    ∀ {cs : List RouteNode} {c : RouteNode},
      obsFalseAllOf i cs = true → c ∈ cs → RouteNode.obsFalseAll i c = true := by
  intro cs
  induction cs with
  | nil => intro c _ hm; cases hm
  | cons d ds ih =>
    intro c h hm
    rw [obsFalseAllOf, Bool.and_eq_true] at h
    cases hm with
    | head => exact h.1
    | tail _ hm => exact ih h.2 hm

theorem obsFalseAll_inspectors {i : Nat} {n : RouteNode}
    (h : RouteNode.obsFalseAll i n = true) : inspectorsObsFalse i n.inspectors = true := by
  cases n with
  | node s w v is cs hd =>
    rw [RouteNode.obsFalseAll, Bool.and_eq_true] at h
    exact h.1

theorem obsFalseAll_children {i : Nat} {n : RouteNode}
    (h : RouteNode.obsFalseAll i n = true) : obsFalseAllOf i n.childNodes = true := by
  cases n with
  | node s w v is cs hd =>
    rw [RouteNode.obsFalseAll, Bool.and_eq_true] at h
    exact h.2

theorem runQueue_req_events {request : Request} {resp : Response} {ctx : Context}
    {i : Nat} {c : Context} :
    ∀ {q : List RespInspector} {trace : List Event},
      Event.reqInspectorInvoked i c ∈ (runQueue request resp ctx q trace).2 →
      Event.reqInspectorInvoked i c ∈ trace := by
  intro q
  induction q with
  | nil =>
    intro trace h
    exact h
  | cons rsi rest ih =>
    intro trace h
    rw [runQueue] at h
    rcases hrun : rsi.run request resp ctx with _ | _ | _ <;> rw [hrun] at h
    · have := ih h
      rcases List.mem_append.1 this with h1 | h2
      · exact h1
      · simp at h2
    · rcases List.mem_append.1 h with h1 | h2
      · exact h1
      · simp at h2
    · rcases List.mem_append.1 h with h1 | h2
      · exact h1
      · simp at h2

theorem catchBranch_req_events {rt : Router} {request : Request} {ctx : Context}
    {t : List Event} {i : Nat} {c : Context}
    (h : Event.reqInspectorInvoked i c ∈ (catchBranch rt request ctx t).2) :
    Event.reqInspectorInvoked i c ∈ t := by
  rw [catchBranch] at h
  rcases hrun : rt.server_error_handler.run request ctx with _ | _ | _ <;> rw [hrun] at h <;>
    · rcases List.mem_append.1 h with h1 | h2
      · exact h1
      · simp at h2

theorem invokeAndFinish_req_events {rt : Router} {request : Request} {h : Handler}
    {queue : List RespInspector} {ctx : Context} {t : List Event} {i : Nat} {c : Context}
    (hm : Event.reqInspectorInvoked i c ∈ (invokeAndFinish rt request h queue ctx t).2) :
    Event.reqInspectorInvoked i c ∈ t := by
  rw [invokeAndFinish] at hm
  rcases hrun : h.run request ctx with _ | _ | _ <;> rw [hrun] at hm
  · have := runQueue_req_events hm
    rcases List.mem_append.1 this with h1 | h2
    · exact h1
    · simp at h2
  · have := catchBranch_req_events hm
    rcases List.mem_append.1 this with h1 | h2
    · exact h1
    · simp at h2
  · rcases List.mem_append.1 hm with h1 | h2
    · exact h1
    · simp at h2

theorem obsFalse_ev_case {i : Nat} {c ctx : Context} {parts : List String}
    {ri : ReqInspector} {insp : Inspector}
    (h1 : (ri.id != i || !insp.observeChildPaths) = true)
    (hsc : (parts.isEmpty || insp.observeChildPaths) = true)
    (heq : Event.reqInspectorInvoked i c = Event.reqInspectorInvoked ri.id ctx) :
    parts = [] ∧ c = ctx := by
  injection heq with hid hc
  rw [← hid] at h1
  simp only [bne_self_eq_false, Bool.false_or, Bool.not_eq_true'] at h1
  rw [h1, Bool.or_false] at hsc
  exact ⟨List.isEmpty_iff.1 hsc, hc⟩

theorem processInspectors_obsFalse {request : Request} {ctx : Context} {parts : List String}
    {i : Nat} {c : Context} :
    ∀ {inspectors : List Inspector} {queue : List RespInspector} {trace : List Event},
      inspectorsObsFalse i inspectors = true →
      Event.reqInspectorInvoked i c ∈
        (processInspectors request ctx parts inspectors queue trace).traceOf →
      Event.reqInspectorInvoked i c ∈ trace ∨ (parts = [] ∧ c = ctx) := by
  intro inspectors
  induction inspectors with
  | nil =>
    intro queue trace _ hm
    exact Or.inl hm
  | cons insp rest ih =>
    intro queue trace hobs hm
    rw [inspectorsObsFalse, Bool.and_eq_true] at hobs
    obtain ⟨h1, h2⟩ := hobs
    cases hri : insp.requestInspector with
    | none =>
      rw [processInspectors, hri] at hm
      exact ih h2 hm
    | some ri =>
      rw [hri] at h1
      cases hsc : (parts.isEmpty || insp.observeChildPaths) with
      | false =>
        rw [processInspectors, hri] at hm
        simp only [hsc, Bool.false_eq_true, if_false] at hm
        exact ih h2 hm
      | true =>
        rw [processInspectors, hri] at hm
        simp only [hsc, if_true] at hm
        cases hrun : ri.run request ctx with
        | syncThrow =>
          rw [hrun] at hm
          rcases List.mem_append.1 hm with hin | hev
          · exact Or.inl hin
          · exact Or.inr (obsFalse_ev_case h1 hsc (List.mem_singleton.1 hev))
        | asyncReject =>
          rw [hrun] at hm
          rcases List.mem_append.1 hm with hin | hev
          · exact Or.inl hin
          · exact Or.inr (obsFalse_ev_case h1 hsc (List.mem_singleton.1 hev))
        | ok out =>
          simp only [hrun] at hm
          cases hresp : out.response with
          | some r =>
            rw [hresp] at hm
            rcases List.mem_append.1 hm with hin | hev
            · exact Or.inl hin
            · exact Or.inr (obsFalse_ev_case h1 hsc (List.mem_singleton.1 hev))
          | none =>
            rw [hresp] at hm
            cases hcont : out.shouldContinue with
            | false =>
              simp only [hcont, Bool.false_eq_true, if_false] at hm
              rcases List.mem_append.1 hm with hin | hev
              · exact Or.inl hin
              · exact Or.inr (obsFalse_ev_case h1 hsc (List.mem_singleton.1 hev))
            | true =>
              simp only [hcont, if_true] at hm
              rcases ih h2 hm with hin | hdone
              · rcases List.mem_append.1 hin with hin2 | hev
                · exact Or.inl hin2
                · exact Or.inr (obsFalse_ev_case h1 hsc (List.mem_singleton.1 hev))
              · exact Or.inr hdone

theorem processInspectors_obsFalse_result {request : Request} {ctx : Context}
    {parts : List String} {i : Nat} {c : Context} {inspectors : List Inspector}
    {queue : List RespInspector} {trace : List Event} {st : IStep}
    (hobs : inspectorsObsFalse i inspectors = true)
    (hp : processInspectors request ctx parts inspectors queue trace = st)
    (hmem : Event.reqInspectorInvoked i c ∈ st.traceOf) :
    Event.reqInspectorInvoked i c ∈ trace ∨ (parts = [] ∧ c = ctx) :=
  processInspectors_obsFalse hobs (by rw [hp]; exact hmem)

theorem walk_obsFalse {rt : Router} {request : Request} {i : Nat} {c : Context} :
    ∀ (parts : List String) (node : RouteNode) (queue : List RespInspector)
      (closest : Option RouteNode) (ctx : Context) (trace : List Event),
      RouteNode.obsFalseAll i node = true →
      ctx.pathPartsMemo = some parts →
      Event.reqInspectorInvoked i c ∈ (walk rt request node parts queue closest ctx trace).2 →
      Event.reqInspectorInvoked i c ∈ trace ∨ c.pathPartsMemo = some [] := by
  intro parts
  induction parts with
  | nil =>
    intro node queue closest ctx trace hobs hmemo hm
    rw [walk] at hm
    cases hp : processInspectors request ctx [] node.inspectors queue trace with
    | fault t =>
      rw [hp] at hm
      have hmem := catchBranch_req_events hm
      rcases processInspectors_obsFalse_result (obsFalseAll_inspectors hobs) hp hmem with hin | hev
      · exact Or.inl hin
      · exact Or.inr (hev.2 ▸ hmemo)
    | malformed q t =>
      rw [hp] at hm
      have hmem := invokeAndFinish_req_events hm
      rcases processInspectors_obsFalse_result (obsFalseAll_inspectors hobs) hp hmem with hin | hev
      · exact Or.inl hin
      · exact Or.inr (hev.2 ▸ hmemo)
    | halt r q t =>
      rw [hp] at hm
      have hmem := runQueue_req_events hm
      rcases processInspectors_obsFalse_result (obsFalseAll_inspectors hobs) hp hmem with hin | hev
      · exact Or.inl hin
      · exact Or.inr (hev.2 ▸ hmemo)
    | cont q t =>
      rw [hp] at hm
      have hmem : Event.reqInspectorInvoked i c ∈ t := by
        rcases hh : node.handler with _ | h
        · rw [hh] at hm
          exact invokeAndFinish_req_events hm
        · rw [hh] at hm
          exact invokeAndFinish_req_events hm
      rcases processInspectors_obsFalse_result (obsFalseAll_inspectors hobs) hp hmem with hin | hev
      · exact Or.inl hin
      · exact Or.inr (hev.2 ▸ hmemo)
  | cons seg rest ih =>
    intro node queue closest ctx trace hobs hmemo hm
    rw [walk] at hm
    cases hp : processInspectors request ctx (seg :: rest) node.inspectors queue trace with
    | fault t =>
      rw [hp] at hm
      have hmem := catchBranch_req_events hm
      rcases processInspectors_obsFalse_result (obsFalseAll_inspectors hobs) hp hmem with hin | hev
      · exact Or.inl hin
      · exact absurd hev.1 (List.cons_ne_nil seg rest)
    | malformed q t =>
      rw [hp] at hm
      have hmem := invokeAndFinish_req_events hm
      rcases processInspectors_obsFalse_result (obsFalseAll_inspectors hobs) hp hmem with hin | hev
      · exact Or.inl hin
      · exact absurd hev.1 (List.cons_ne_nil seg rest)
    | halt r q t =>
      rw [hp] at hm
      have hmem := runQueue_req_events hm
      rcases processInspectors_obsFalse_result (obsFalseAll_inspectors hobs) hp hmem with hin | hev
      · exact Or.inl hin
      · exact absurd hev.1 (List.cons_ne_nil seg rest)
    | cont q t =>
      rw [hp] at hm
      rcases hfind : node.childNodes.find? (fun n => n.isWildcard || n.pathSegment == seg) with _ | next
      · simp only [hfind] at hm
        have hmem : Event.reqInspectorInvoked i c ∈ t := by
          repeat' split at hm
          all_goals exact invokeAndFinish_req_events hm
        rcases processInspectors_obsFalse_result (obsFalseAll_inspectors hobs) hp hmem with hin | hev
        · exact Or.inl hin
        · exact absurd hev.1 (List.cons_ne_nil seg rest)
      · simp only [hfind] at hm
        have hobs' : RouteNode.obsFalseAll i next = true :=
          obsFalseAll_of_mem (obsFalseAll_children hobs) (List.mem_of_find?_eq_some hfind)
        rcases ih next q _ _ t hobs' (by split <;> rfl) hm with hin | hdone
        · rcases processInspectors_obsFalse_result (obsFalseAll_inspectors hobs) hp hin with hin2 | hev
          · exact Or.inl hin2
          · exact absurd hev.1 (List.cons_ne_nil seg rest)
        · exact Or.inr hdone

/-- An inspector whose request inspector (id `i`) always continues, with
the given `observeChildPaths` flag. -/
def obsInspector (i : Nat) (obs : Bool) : Inspector :=
  { requestInspector := some ⟨i, fun _ _ => .ok ⟨true, none⟩⟩, observeChildPaths := obs }

/-- Router with handlers at `/sub` (id 1) and `/sub/path` (id 2) and two
inspectors at `/sub`: id 5 with `observeChildPaths = false` and id 6 with
`observeChildPaths = true`. -/
def c7Router : Router :=
  (((emptyRouter.get "/sub" (okHandler 1 200 "sub")).get "/sub/path"
      (okHandler 2 200 "subpath")).addGetInspector "/sub"
      (obsInspector 5 false)).addGetInspector "/sub" (obsInspector 6 true)

/-- Claim C7: in any GET dispatch, a request inspector whose every
occurrence in the trie has `observeChildPaths = false` is only ever
invoked with zero remaining path segments (the context snapshot at
invocation has an empty path-parts array), i.e. only when the request
path ends exactly at its node; concretely, inspector 5 (scope false) at
`/sub` fires for `/sub` but not for `/sub/path`, while inspector 6
(scope true) fires for both. -/
theorem c7_scope :
    (∀ (rt : Router) (request : Request) (i : Nat) (c : Context),
      request.method = "GET" →
      RouteNode.obsFalseAll i rt.get_routes = true →
      Event.reqInspectorInvoked i c ∈ (rt.requestHandler request).2 →
      c.pathPartsMemo = some []) ∧
    c7Router.requestHandler ⟨"GET", "/sub"⟩ =
      (DispatchResult.resolved ⟨200, [], "sub"⟩,
        [Event.reqInspectorInvoked 5 ⟨"/sub", [], some []⟩,
          Event.reqInspectorInvoked 6 ⟨"/sub", [], some []⟩,
          Event.handlerInvoked 1 ⟨"/sub", [], some []⟩]) ∧
    c7Router.requestHandler ⟨"GET", "/sub/path"⟩ =
      (DispatchResult.resolved ⟨200, [], "subpath"⟩,
        [Event.reqInspectorInvoked 6 ⟨"/sub/path", [], some ["path"]⟩,
          Event.handlerInvoked 2 ⟨"/sub/path", [], some []⟩]) := by
  refine ⟨?_, by decide, by decide⟩
  intro rt request i c hmethod hobs hm
  rw [Router.requestHandler] at hm
  simp only [hmethod, if_pos] at hm
  rcases walk_obsFalse _ _ _ _ _ _ hobs rfl hm with hin | hdone
  · cases hin
  · exact hdone

/-- Witness for `c7_scope`: its general part applied to the concrete
router, request `/sub`, inspector id 5 and the context snapshot from the
trace. -/
theorem c7_scope_witness :
    (⟨"/sub", [], some []⟩ : Context).pathPartsMemo = some [] :=
  c7_scope.1 c7Router ⟨"GET", "/sub"⟩ 5 ⟨"/sub", [], some []⟩ rfl (by decide) (by decide)

/-! ## C9: the shared, destructively shifted path-parts array -/

/-- A handler that reports whether `getPathParts` returns an empty array
at invocation time. -/
def c9Handler : Handler :=
  ⟨3, fun _ ctx => .ok ⟨200, [], if (ctx.getPathParts).1.isEmpty then "empty" else "nonempty"⟩⟩

/-- Router with the `getPathParts`-observing handler at `/sub/path`. -/
def c9Router : Router := emptyRouter.get "/sub/path" c9Handler

/-- Claim C9: `getPathParts` returns the memoized array unchanged on
every call once computed (same shared array); the walk destructively
shifts consumed segments off it, and at an exact match the handler is
invoked with the walked context itself, whose path-parts array is empty —
concretely, the handler at `/sub/path` registered via `getPathParts`
observes `[]` (body "empty"), not the full split
`["", "sub", "path"]`. -/
theorem c9_path_parts :
    (∀ (ctx : Context) (ps : List String),
      ctx.pathPartsMemo = some ps → ctx.getPathParts = (ps, ctx)) ∧
    (∀ (rt : Router) (request : Request) (node : RouteNode) (queue : List RespInspector)
        (closest : Option RouteNode) (ctx : Context) (trace : List Event)
        (q : List RespInspector) (t : List Event) (h : Handler),
      processInspectors request ctx [] node.inspectors queue trace = IStep.cont q t →
      node.handler = some h →
      walk rt request node [] queue closest ctx trace = invokeAndFinish rt request h q ctx t) ∧
    c9Router.requestHandler ⟨"GET", "/sub/path"⟩ =
      (DispatchResult.resolved ⟨200, [], "empty"⟩,
        [Event.handlerInvoked 3 ⟨"/sub/path", [], some []⟩]) ∧
    jsSplitSlash "/sub/path" = ["", "sub", "path"] := by
  refine ⟨?_, ?_, by decide, by decide⟩
  · intro ctx ps hmemo
    unfold Context.getPathParts
    rw [hmemo]
  · intro rt request node queue closest ctx trace q t h hp hh
    unfold walk
    rw [hp]
    simp only [hh]

/-- Witness for `c9_path_parts`: its memoization part applied at a
concrete context. -/
theorem c9_path_parts_witness :
    Context.getPathParts ⟨"/x", [], some ["a"]⟩ = (["a"], ⟨"/x", [], some ["a"]⟩) :=
  c9_path_parts.1 ⟨"/x", [], some ["a"]⟩ ["a"] rfl

/-! ## C3 amended: the wildcard-child invariant under registration -/

/-- A registration action that only edits a node's handler or inspector
list, leaving its segment, wildcard status, variable name and children
unchanged (both real actions — `setHandler` and `addInspector` — do). -/
def preservesShape (action : RouteNode → RouteNode) : Prop :=
  ∀ n : RouteNode,
    (action n).pathSegment = n.pathSegment ∧ (action n).isWildcard = n.isWildcard ∧
      (action n).pathVariable = n.pathVariable ∧ (action n).childNodes = n.childNodes

mutual

/-- Every node of the subtree has at most one wildcard child. -/
def RouteNode.wfWildB : RouteNode → Bool
  | .node _ _ _ _ cs _ =>
    decide ((cs.filter (fun c => c.isWildcard)).length ≤ 1) && wfWildList cs

/-- `RouteNode.wfWildB` over a list of subtrees. -/
def wfWildList : List RouteNode → Bool
  | [] => true
  | c :: cs => c.wfWildB && wfWildList cs

end

theorem pathSegment_addChildNode (n c : RouteNode) :
    (n.addChildNode c).pathSegment = n.pathSegment := by cases n; rfl

theorem isWildcard_addChildNode (n c : RouteNode) :
    (n.addChildNode c).isWildcard = n.isWildcard := by cases n; rfl

theorem pathVariable_addChildNode (n c : RouteNode) :
    (n.addChildNode c).pathVariable = n.pathVariable := by cases n; rfl

theorem childNodes_addChildNode (n c : RouteNode) :
    (n.addChildNode c).childNodes = n.childNodes ++ [c] := by cases n; rfl

theorem pathSegment_withChildNodes (n : RouteNode) (cs : List RouteNode) :
    (n.withChildNodes cs).pathSegment = n.pathSegment := by cases n; rfl

theorem isWildcard_withChildNodes (n : RouteNode) (cs : List RouteNode) :
    (n.withChildNodes cs).isWildcard = n.isWildcard := by cases n; rfl

theorem pathVariable_withChildNodes (n : RouteNode) (cs : List RouteNode) :
    (n.withChildNodes cs).pathVariable = n.pathVariable := by cases n; rfl

theorem childNodes_withChildNodes (n : RouteNode) (cs : List RouteNode) :
    (n.withChildNodes cs).childNodes = cs := by cases n; rfl

theorem setHandler_preservesShape (h : Handler) :
    preservesShape (fun n => n.setHandler h) := by
  intro n
  cases n with
  | node s w v is cs hd =>
    cases hd <;>
      exact ⟨rfl, rfl, rfl, rfl⟩

theorem addInspector_preservesShape (i : Inspector) :
    preservesShape (fun n => n.addInspector i) := by
  intro n
  cases n with
  | node s w v is cs hd => exact ⟨rfl, rfl, rfl, rfl⟩

theorem wfWildB_congr {a b : RouteNode} (h : a.childNodes = b.childNodes) :
    a.wfWildB = b.wfWildB := by
  cases a with
  | node s w v is cs hd =>
    cases b with
    | node s2 w2 v2 is2 cs2 hd2 =>
      simp only [RouteNode.childNodes] at h
      subst h
      rfl

theorem wfWildB_node_iff (n : RouteNode) :
    n.wfWildB = ((decide ((n.childNodes.filter (fun c => c.isWildcard)).length ≤ 1)) &&
      wfWildList n.childNodes) := by
  cases n; rfl

theorem wfWildList_of_mem :
    ∀ {cs : List RouteNode} {c : RouteNode},
      wfWildList cs = true → c ∈ cs → RouteNode.wfWildB c = true := by
  intro cs
  induction cs with
  | nil => intro c _ hm; cases hm
  | cons d ds ih =>
    intro c h hm
    rw [wfWildList, Bool.and_eq_true] at h
    cases hm with
    | head => exact h.1
    | tail _ hm => exact ih h.2 hm

theorem wfWildList_append :
    ∀ (cs : List RouteNode) (c : RouteNode),
      wfWildList (cs ++ [c]) = (wfWildList cs && c.wfWildB) := by
  intro cs c
  induction cs with
  | nil => simp [wfWildList]
  | cons d ds ih =>
    rw [List.cons_append, wfWildList, wfWildList, ih, Bool.and_assoc]

theorem helper_top_fields {action : RouteNode → RouteNode} (hA : preservesShape action) :
    ∀ (segs : List String) (node : RouteNode),
      (node.addPathPropertyHelper segs action).pathSegment = node.pathSegment ∧
        (node.addPathPropertyHelper segs action).isWildcard = node.isWildcard ∧
        (node.addPathPropertyHelper segs action).pathVariable = node.pathVariable := by
  intro segs node
  cases segs with
  | nil => exact ⟨(hA node).1, (hA node).2.1, (hA node).2.2.1⟩
  | cons seg rest =>
    rw [RouteNode.addPathPropertyHelper]
    repeat' split
    all_goals
      simp [pathSegment_addChildNode, isWildcard_addChildNode, pathVariable_addChildNode,
        pathSegment_withChildNodes, isWildcard_withChildNodes, pathVariable_withChildNodes]

theorem find?_replaceFirst {p : RouteNode → Bool} {u w : RouteNode} :
    ∀ {cs : List RouteNode}, cs.find? p = some w → p u = true →
      (replaceFirst p u cs).find? p = some u := by
  intro cs
  induction cs with
  | nil => intro h _; simp [List.find?] at h
  | cons c cs ih =>
    intro h hu
    rw [replaceFirst]
    cases hpc : p c with
    | true =>
      rw [if_pos rfl]
      simp [List.find?, hu]
    | false =>
      rw [if_neg (by simp)]
      rw [List.find?_cons_of_neg _ (by simp [hpc])] at h
      rw [List.find?_cons_of_neg _ (by simp [hpc])]
      exact ih h hu

theorem filter_length_replaceFirst {p q : RouteNode → Bool} {u w : RouteNode} :
    ∀ {cs : List RouteNode}, cs.find? p = some w → q u = q w →
      ((replaceFirst p u cs).filter q).length = (cs.filter q).length := by
  intro cs
  induction cs with
  | nil => intro h _; simp [List.find?] at h
  | cons c cs ih =>
    intro h hq
    rw [replaceFirst]
    cases hpc : p c with
    | true =>
      rw [if_pos rfl]
      rw [List.find?_cons_of_pos _ hpc] at h
      injection h with h
      subst h
      cases hqc : q c with
      | true => simp [List.filter, hqc, hq ▸ hqc]
      | false => simp [List.filter, hqc, hq ▸ hqc]
    | false =>
      rw [if_neg (by simp)]
      rw [List.find?_cons_of_neg _ (by simp [hpc])] at h
      cases hqc : q c with
      | true => simp [List.filter, hqc, ih h hq]
      | false => simp [List.filter, hqc, ih h hq]

theorem wfWildList_replaceFirst {p : RouteNode → Bool} {u w : RouteNode} :
    ∀ {cs : List RouteNode}, cs.find? p = some w → u.wfWildB = true →
      wfWildList cs = true → wfWildList (replaceFirst p u cs) = true := by
  intro cs
  induction cs with
  | nil => intro h _ _; simp [List.find?] at h
  | cons c cs ih =>
    intro h hu hwf
    rw [wfWildList, Bool.and_eq_true] at hwf
    rw [replaceFirst]
    cases hpc : p c with
    | true =>
      rw [if_pos rfl]
      rw [wfWildList, Bool.and_eq_true]
      exact ⟨hu, hwf.2⟩
    | false =>
      rw [if_neg (by simp)]
      rw [List.find?_cons_of_neg _ (by simp [hpc])] at h
      rw [wfWildList, Bool.and_eq_true]
      exact ⟨hwf.1, ih h hu hwf.2⟩

theorem childNodes_setIsWildcard (n : RouteNode) (b : Bool) (pv : Option String) :
    (n.setIsWildcard b pv).childNodes = n.childNodes := by
  cases n with
  | node s w v is cs h =>
    cases pv with
    | none => rfl
    | some name =>
      rw [RouteNode.setIsWildcard]
      split <;> rfl

theorem wf_addChild_wild {node x : RouteNode}
    (hfind : node.childNodes.find? (fun c => c.isWildcard) = none)
    (hlist : wfWildList node.childNodes = true)
    (hwf : x.wfWildB = true) : (node.addChildNode x).wfWildB = true := by
  have hnil : node.childNodes.filter (fun c => c.isWildcard) = [] := by
    rw [List.filter_eq_nil_iff]
    intro a ha
    have := List.find?_eq_none.1 hfind a ha
    simpa using this
  rw [wfWildB_node_iff, Bool.and_eq_true, decide_eq_true_eq, childNodes_addChildNode]
  constructor
  · rw [List.filter_append, hnil, List.nil_append]
    exact List.length_filter_le _ _
  · rw [wfWildList_append, Bool.and_eq_true]
    exact ⟨hlist, hwf⟩

theorem wf_addChild_nonwild {node x : RouteNode}
    (hcount : (node.childNodes.filter (fun c => c.isWildcard)).length ≤ 1)
    (hlist : wfWildList node.childNodes = true)
    (hx : x.isWildcard = false) (hwf : x.wfWildB = true) :
    (node.addChildNode x).wfWildB = true := by
  rw [wfWildB_node_iff, Bool.and_eq_true, decide_eq_true_eq, childNodes_addChildNode]
  constructor
  · rw [List.filter_append, List.length_append]
    have hone : (List.filter (fun c => c.isWildcard) [x]).length = 0 := by
      simp [List.filter_singleton, hx]
    rw [hone]
    simpa using hcount
  · rw [wfWildList_append, Bool.and_eq_true]
    exact ⟨hlist, hwf⟩

theorem helper_wfWild {action : RouteNode → RouteNode} (hA : preservesShape action) :
    ∀ (segs : List String), "*" ∉ segs →
      ∀ (node : RouteNode), RouteNode.wfWildB node = true →
        RouteNode.wfWildB (node.addPathPropertyHelper segs action) = true := by
  intro segs
  induction segs with
  | nil =>
    intro _ node hwf
    rw [RouteNode.addPathPropertyHelper]
    rw [wfWildB_congr (hA node).2.2.2]
    exact hwf
  | cons seg rest ih =>
    intro hns node hwf
    have hseg : ¬(seg = "*") := fun h => hns (h ▸ List.mem_cons_self seg rest)
    have hrest : "*" ∉ rest := fun h => hns (List.mem_cons_of_mem seg h)
    rw [RouteNode.addPathPropertyHelper, if_neg hseg]
    rw [wfWildB_node_iff, Bool.and_eq_true, decide_eq_true_eq] at hwf
    obtain ⟨hcount, hlist⟩ := hwf
    by_cases hvar : (1 < seg.data.length ∧ seg.data.headD ' ' = ':')
    · rw [if_pos hvar]
      cases hfind : node.childNodes.find? (fun c => c.isWildcard) with
      | some child =>
        simp only [hfind]
        have hwfchild := wfWildList_of_mem hlist (List.mem_of_find?_eq_some hfind)
        have hupd_wf :
            (if rest.isEmpty then action child
             else child.addPathPropertyHelper rest action).wfWildB = true := by
          split
          · rw [wfWildB_congr (hA child).2.2.2]; exact hwfchild
          · exact ih hrest child hwfchild
        have hupd_wild :
            (if rest.isEmpty then action child
             else child.addPathPropertyHelper rest action).isWildcard = child.isWildcard := by
          split
          · exact (hA child).2.1
          · exact (helper_top_fields hA rest child).2.1
        rw [wfWildB_node_iff, Bool.and_eq_true, decide_eq_true_eq, childNodes_withChildNodes]
        constructor
        · rw [filter_length_replaceFirst hfind hupd_wild]
          exact hcount
        · exact wfWildList_replaceFirst hfind hupd_wf hlist
      | none =>
        simp only [hfind]
        have hnc :
            RouteNode.wfWildB
              ((RouteNode.empty).setIsWildcard true (some (String.mk seg.data.tail))) = true := by
          rw [wfWildB_node_iff, childNodes_setIsWildcard]
          rfl
        refine wf_addChild_wild hfind hlist ?_
        split
        · rw [wfWildB_congr (hA _).2.2.2]; exact hnc
        · exact ih hrest _ hnc
    · rw [if_neg hvar]
      cases hfind : node.childNodes.find? (fun c => c.pathSegment == seg) with
      | some child =>
        simp only [hfind]
        have hwfchild := wfWildList_of_mem hlist (List.mem_of_find?_eq_some hfind)
        have hupd_wf :
            (if rest.isEmpty then action child
             else child.addPathPropertyHelper rest action).wfWildB = true := by
          split
          · rw [wfWildB_congr (hA child).2.2.2]; exact hwfchild
          · exact ih hrest child hwfchild
        have hupd_wild :
            (if rest.isEmpty then action child
             else child.addPathPropertyHelper rest action).isWildcard = child.isWildcard := by
          split
          · exact (hA child).2.1
          · exact (helper_top_fields hA rest child).2.1
        rw [wfWildB_node_iff, Bool.and_eq_true, decide_eq_true_eq, childNodes_withChildNodes]
        constructor
        · rw [filter_length_replaceFirst hfind hupd_wild]
          exact hcount
        · exact wfWildList_replaceFirst hfind hupd_wf hlist
      | none =>
        simp only [hfind]
        have hnc : RouteNode.wfWildB ((RouteNode.empty).setPathSegment seg) = true := by
          rfl
        refine wf_addChild_nonwild hcount hlist ?_ ?_
        · split
          · rw [(hA _).2.1]; rfl
          · rw [(helper_top_fields hA rest _).2.1]; rfl
        · split
          · rw [wfWildB_congr (hA _).2.2.2]; exact hnc
          · exact ih hrest _ hnc

theorem helper_keeps_wildcard_name {action : RouteNode → RouteNode} (hA : preservesShape action)
    (seg : String) (rest : List String) (node w : RouteNode)
    (hvar : 1 < seg.data.length ∧ seg.data.headD ' ' = ':')
    (hfind : node.childNodes.find? (fun c => c.isWildcard) = some w) :
    ∃ w', (node.addPathPropertyHelper (seg :: rest) action).childNodes.find?
        (fun c => c.isWildcard) = some w' ∧ w'.pathVariable = w.pathVariable := by
  have hseg : ¬(seg = "*") := by
    intro h
    subst h
    exact absurd hvar.2 (by decide)
  have hwild : w.isWildcard = true := List.find?_some hfind
  rw [RouteNode.addPathPropertyHelper, if_neg hseg, if_pos hvar]
  simp only [hfind]
  rw [childNodes_withChildNodes]
  refine ⟨if rest.isEmpty then action w else w.addPathPropertyHelper rest action,
    find?_replaceFirst hfind ?_, ?_⟩
  · show (if rest.isEmpty then action w else w.addPathPropertyHelper rest action).isWildcard = true
    split
    · rw [(hA w).2.1]; exact hwild
    · rw [(helper_top_fields hA rest w).2.1]; exact hwild
  · show (if rest.isEmpty then action w else w.addPathPropertyHelper rest action).pathVariable =
      w.pathVariable
    split
    · exact (hA w).2.2.1
    · exact (helper_top_fields hA rest w).2.2

/-- Claim C3 amended: for registration sequences containing no `*`
segment, `addPathPropertyHelper` (with either real registration action)
preserves "every node has at most one wildcard child"; a registration
through a `:name` segment at a position that already has a wildcard child
keeps that child's variable name unchanged (a conflicting name is only
logged); but splat registrations always append a fresh wildcard child, so
after registering `/a/*` twice the invariant is false. -/
theorem c3_amended :
    (∀ (action : RouteNode → RouteNode), preservesShape action →
      ∀ (segs : List String), "*" ∉ segs →
        ∀ (node : RouteNode), RouteNode.wfWildB node = true →
          RouteNode.wfWildB (node.addPathPropertyHelper segs action) = true) ∧
    (∀ (action : RouteNode → RouteNode), preservesShape action →
      ∀ (seg : String) (rest : List String) (node w : RouteNode),
        1 < seg.data.length ∧ seg.data.headD ' ' = ':' →
        node.childNodes.find? (fun c => c.isWildcard) = some w →
        ∃ w', (node.addPathPropertyHelper (seg :: rest) action).childNodes.find?
            (fun c => c.isWildcard) = some w' ∧ w'.pathVariable = w.pathVariable) ∧
    (∀ h : Handler, preservesShape (fun n => n.setHandler h)) ∧
    (∀ i : Inspector, preservesShape (fun n => n.addInspector i)) ∧
    RouteNode.wfWildB c3Router.get_routes = false := by
  refine ⟨?_, ?_, setHandler_preservesShape, addInspector_preservesShape, by decide⟩
  · intro action hA segs hns node hwf
    exact helper_wfWild hA segs hns node hwf
  · intro action hA seg rest node w hvar hfind
    exact helper_keeps_wildcard_name hA seg rest node w hvar hfind

/-- Witness for `c3_amended`: its invariant-preservation part applied to
a concrete no-splat registration. -/
theorem c3_amended_witness :
    RouteNode.wfWildB ((RouteNode.empty).addPathPropertyHelper ["users", ":id"]
      (fun n => n.setHandler (okHandler 1 200 "w"))) = true :=
  c3_amended.1 (fun n => n.setHandler (okHandler 1 200 "w"))
    (setHandler_preservesShape (okHandler 1 200 "w")) ["users", ":id"] (by decide)
    RouteNode.empty (by decide)
